import Mathlib

/-!
Verification of the fallback orchestrator (`fallback.go`) and the
round-robin backend pool (`google.go`) of the `ai` package.

The Go code is shallowly embedded: each Go function that the claims
touch is transcribed as a Lean function over explicit data.  A backend
(`LLM` in the source) is represented by the outcome it produces for the
single logical request at hand, together with its model identifier;
Go channels become explicit event traces; `error` values become the
inductive `GoErr`, mirroring exactly the error constructions that
appear in `fallback.go`.
-/

namespace AIFallback

/-- Error values as constructed in `fallback.go`.
`backendErr s` is an arbitrary error returned by a backend;
`canceled` is `context.Canceled`;
`modelErr m e` is `fmt.Errorf("Model %s error: %v", m, e)` (line 30 / 84);
`aggregated e` is `fmt.Errorf("LLM failed, last error: %v", e)` with a
non-nil `lastErr` (line 34 / 101 / 187) and `aggregatedNil` is the same
format string with a nil `lastErr` ("LLM failed, last error: <nil>");
`llmFailed` is `errors.New("LLM failed")` (line 103);
`mismatchErr ni nm` is `fmt.Errorf("number of images (%d) does not match
number of mime types (%d)", ni, nm)` (line 156). -/
inductive GoErr where
  | backendErr (msg : String)
  | canceled
  | modelErr (model : String) (e : GoErr)
  | aggregated (last : GoErr)
  | aggregatedNil
  | llmFailed
  | mismatchErr (nImages nMime : Nat)
deriving DecidableEq

/-- `fmt.Errorf("LLM failed, last error: %v", lastErr)` applied to the
running `lastErr`, which is nil when no backend ever reported an error. -/
def aggErr : Option GoErr → GoErr
  | some e => .aggregated e
  | none => .aggregatedNil

instance {ε α : Type} [DecidableEq ε] [DecidableEq α] :
    DecidableEq (Except ε α)
  | .ok a, .ok b =>
    if h : a = b then .isTrue (by rw [h]) else .isFalse (by simp [h])
  | .ok _, .error _ => .isFalse (fun hc => Except.noConfusion hc)
  | .error _, .ok _ => .isFalse (fun hc => Except.noConfusion hc)
  | .error a, .error b =>
    if h : a = b then .isTrue (by rw [h]) else .isFalse (by simp [h])

/-- A backend (`LLM`) as seen by one synchronous orchestrator call: the
model id it reports via `GetModel()` and the result the invoked method
(`fn gen` in `generateWithFallback`, i.e. `gen.Generate(...)`,
`gen.GenerateWithImage(...)`, `gen.GenerateWithImages(...)` or
`gen.GenerateWithMessages(...)`) returns for the request at hand. -/
structure Backend where
  model : String
  result : Except GoErr String
deriving DecidableEq

/-- Observable outcome of one synchronous orchestrator call:
the returned value or error, the value written to `f.currentModel`
(`none` when the field is not written), the arguments passed to
`f.errorCallback` in order, and the model ids of the backends whose
call `fn gen` was invoked, in invocation order. -/
structure GenOutcome where
  result : Except GoErr String
  newModel : Option String
  callbackArgs : List GoErr
  invoked : List String
deriving DecidableEq

/-- The loop of `(f *FallbackLLM) generateWithFallback` (fallback.go
lines 21-35), with the running `lastErr` made an explicit argument.
`hasCb` is whether `f.errorCallback != nil` (the guard on line 29). -/
def genFallbackAux (hasCb : Bool) (lastErr : Option GoErr) :
    List Backend → GenOutcome
  | [] =>
    { result := .error (aggErr lastErr), newModel := none,
      callbackArgs := [], invoked := [] }
  | b :: rest =>
    match b.result with
    | .ok response =>
      { result := .ok response, newModel := some b.model,
        callbackArgs := [], invoked := [b.model] }
    | .error e =>
      let tail := genFallbackAux hasCb (some e) rest
      { result := tail.result, newModel := tail.newModel,
        callbackArgs := (if hasCb then [GoErr.modelErr b.model e] else [])
          ++ tail.callbackArgs,
        invoked := b.model :: tail.invoked }

/-- `(f *FallbackLLM) generateWithFallback`: the loop started with
`var lastErr error` (nil). -/
def generateWithFallback (hasCb : Bool) (llms : List Backend) : GenOutcome :=
  genFallbackAux hasCb none llms

/-- `(f *FallbackLLM) GenerateWithMessages` (fallback.go lines 174-188):
the same loop written out a second time in the source; transcribed
independently. -/
def fallbackGenerateWithMessagesAux (hasCb : Bool) (lastErr : Option GoErr) :
    List Backend → GenOutcome
  | [] =>
    { result := .error (aggErr lastErr), newModel := none,
      callbackArgs := [], invoked := [] }
  | gen :: rest =>
    match gen.result with
    | .ok response =>
      { result := .ok response, newModel := some gen.model,
        callbackArgs := [], invoked := [gen.model] }
    | .error err =>
      let tail := fallbackGenerateWithMessagesAux hasCb (some err) rest
      { result := tail.result, newModel := tail.newModel,
        callbackArgs := (if hasCb then [GoErr.modelErr gen.model err] else [])
          ++ tail.callbackArgs,
        invoked := gen.model :: tail.invoked }

/-- `(f *FallbackLLM) GenerateWithMessages`, outermost entry. -/
def fallbackGenerateWithMessages (hasCb : Bool) (llms : List Backend) :
    GenOutcome :=
  fallbackGenerateWithMessagesAux hasCb none llms

/-- The error of a backend, when it fails. -/
def Backend.errOf (b : Backend) : Option GoErr :=
  match b.result with
  | .ok _ => none
  | .error e => some e

/-- `b` fails (its call returns a non-nil error). -/
def Backend.fails (b : Backend) : Prop := ∃ e, b.result = .error e

instance (b : Backend) : Decidable b.fails :=
  match h : b.result with
  | .ok _ => .isFalse (by simp [Backend.fails, h])
  | .error e => .isTrue ⟨e, h⟩

/-- `(f *FallbackLLM) Generate` (fallback.go lines 37-41): delegates the
whole call to `generateWithFallback` with `fn gen = gen.Generate(ctx, ...)`. -/
def fallbackGenerate (hasCb : Bool) (llms : List Backend) : GenOutcome :=
  generateWithFallback hasCb llms

/-! ## Streaming (`GenerateStream`, fallback.go lines 43-110)

One backend attempt is the `select` at lines 70-96: the orchestrator
launches `gen.GenerateStream(genCtx, ...)` in a goroutine sharing
`resultCh`, and waits for exactly one of `genDoneCh`, `genErrCh` or
`ctx.Done()`.  In the embedding an attempt is summarised by the tokens
the backend puts on `resultCh` before its terminal signal, and by which
arm of the `select` fires.  The backend adapters in this repository
(e.g. `google.go` lines 147-183) emit their terminal signal as the last
action of their streaming goroutine, so every token of an attempt
happens-before the orchestrator's handling of that attempt's outcome;
the linear trace below reflects that ordering. -/

/-- Which arm of the `select` (fallback.go lines 70-96) terminates the
attempt: `done` = `<-genDoneCh`; `fail e` = `err := <-genErrCh` with a
non-nil `err` (including `err == context.Canceled`, reported by a
backend that observed the cancellation); `errNil` = `genErrCh` delivered
a nil error; `ctxDone` = the caller's `<-ctx.Done()` fired. -/
inductive StreamOutcome where
  | done
  | fail (e : GoErr)
  | errNil
  | ctxDone
deriving DecidableEq

/-- One backend (`LLM`) as seen by one `GenerateStream` call: its model
id, the tokens it relays onto the shared `resultCh` during its attempt,
and how the attempt terminates. -/
structure StreamBackend where
  model : String
  tokens : List String
  outcome : StreamOutcome
deriving DecidableEq

/-- Everything sent on the three output channels, in order:
`token s` = a send on `resultCh` (including the `"[CLEAR]"` sentinel),
`doneSig` = `doneCh <- true`, `errSig e` = `errCh <- e`. -/
inductive StreamEvent where
  | token (s : String)
  | doneSig
  | errSig (e : GoErr)
deriving DecidableEq

/-- Observable behaviour of one `GenerateStream` call: channel events in
order, the write to `f.currentModel` (if any), callback arguments,
the model ids of backends whose attempt was started, in order, and
whether the run dereferenced a nil `f.errorCallback` (fallback.go line
84 has no nil guard; calling a nil function value is a Go runtime
panic, which aborts the run). -/
structure StreamRun where
  events : List StreamEvent
  newModel : Option String
  callbackArgs : List GoErr
  invoked : List String
  nilCbCrash : Bool
deriving DecidableEq

/-- `finalErr` computed at fallback.go lines 99-104. -/
def finalStreamErr : Option GoErr → GoErr
  | some e => .aggregated e
  | none => .llmFailed

/-- The loop of `(f *FallbackLLM) GenerateStream` (fallback.go lines
43-110), with the loop position (`first` = `i == 0`) and the running
`lastErr` explicit.  The caller's context is live except where an
attempt's own outcome records the cancellation (`ctxDone`), so the
`select`s guarding the `"[CLEAR]"` send (line 48), the top of the loop
(line 56) and the final error send (line 106) take their non-`Done`
arm. -/
def generateStreamAux (hasCb : Bool) (first : Bool) (lastErr : Option GoErr) :
    List StreamBackend → StreamRun
  | [] =>
    { events := [.errSig (finalStreamErr lastErr)], newModel := none,
      callbackArgs := [], invoked := [], nilCbCrash := false }
  | gen :: rest =>
    let pre : List StreamEvent :=
      (if first then [] else [.token "[CLEAR]"]) ++ gen.tokens.map .token
    match gen.outcome with
    | .done =>
      { events := pre ++ [.doneSig], newModel := some gen.model,
        callbackArgs := [], invoked := [gen.model], nilCbCrash := false }
    | .ctxDone =>
      { events := pre ++ [.errSig .canceled], newModel := none,
        callbackArgs := [], invoked := [gen.model], nilCbCrash := false }
    | .errNil =>
      { events := pre ++ [.doneSig], newModel := none,
        callbackArgs := [], invoked := [gen.model], nilCbCrash := false }
    | .fail e =>
      if e = .canceled then
        { events := pre ++ [.errSig .canceled], newModel := none,
          callbackArgs := [], invoked := [gen.model], nilCbCrash := false }
      else if hasCb then
        let tail := generateStreamAux hasCb false (some e) rest
        { events := pre ++ tail.events, newModel := tail.newModel,
          callbackArgs := GoErr.modelErr gen.model e :: tail.callbackArgs,
          invoked := gen.model :: tail.invoked, nilCbCrash := tail.nilCbCrash }
      else
        { events := pre, newModel := none, callbackArgs := [],
          invoked := [gen.model], nilCbCrash := true }

/-- `(f *FallbackLLM) GenerateStream`, outermost entry:
`var lastErr error` is nil and the loop starts at `i = 0`. -/
def fallbackGenerateStream (hasCb : Bool) (llms : List StreamBackend) :
    StreamRun :=
  generateStreamAux hasCb true none llms

/-! ## Channel sends of `GenerateStream` (for the send/cancellation race)

Each entry below is one send statement executed by the orchestrator
itself in fallback.go lines 43-110 (token forwarding is performed by the
backend goroutine, not by the orchestrator).  `guarded` records whether
the send is an arm of a `select` that also waits on `ctx.Done()`. -/

/-- The three output channels of `GenerateStream`. -/
inductive Chan where
  | resultCh
  | doneCh
  | errCh
deriving DecidableEq

/-- One send statement in `FallbackLLM.GenerateStream`, by source line. -/
structure SendSite where
  line : Nat
  chan : Chan
  guarded : Bool
deriving DecidableEq

/-- The send statements of fallback.go lines 43-110, in textual order:
line 49 `resultCh <- "[CLEAR]"` inside `select { ... case <-ctx.Done() }`;
line 51 `errCh <- ctx.Err()` (bare, inside the `Done` arm);
line 58 `errCh <- ctx.Err()` (bare, top-of-loop `Done` arm);
line 74 `doneCh <- true` (bare, success arm);
line 79 `errCh <- err` (bare, `err == context.Canceled` branch);
line 89 `doneCh <- true` (bare, nil-error branch after `<-genDoneCh`);
line 94 `errCh <- ctx.Err()` (bare, `ctx.Done` arm of the attempt select);
line 107 `errCh <- finalErr` inside `select { ... case <-ctx.Done() }`. -/
def generateStreamSendSites : List SendSite :=
  [ ⟨49, .resultCh, true⟩,
    ⟨51, .errCh, false⟩,
    ⟨58, .errCh, false⟩,
    ⟨74, .doneCh, false⟩,
    ⟨79, .errCh, false⟩,
    ⟨89, .doneCh, false⟩,
    ⟨94, .errCh, false⟩,
    ⟨107, .errCh, true⟩ ]

/-! ## Image buffering (`bufferImage`, `GenerateWithImage(s)`)

An `io.Reader` is a single-pass byte source: reading it consumes it.
A source is embedded as `Option (List Nat)` — `none` is a nil reader,
`some data` a healthy (never-erroring) reader whose unread content is
`data`. -/

/-- `bufferImage` (fallback.go lines 117-126): `io.Copy` drains the
source into a fresh buffer.  Returns `(imageBuf, source-after-copy)`:
a nil source yields a nil buffer untouched; otherwise the buffer holds
the full content and the source is left empty (fully consumed). -/
def bufferImage : Option (List Nat) → Option (List Nat) × Option (List Nat)
  | none => (none, none)
  | some data => (some data, some [])

/-- `newReadersFromBuffers` (fallback.go lines 129-137): for each
non-nil buffer, a fresh independent reader over `buf.Bytes()`; a nil
buffer leaves the zero-value (nil) reader. -/
def newReadersFromBuffers (bufs : List (Option (List Nat))) :
    List (Option (List Nat)) :=
  bufs.map (fun buf =>
    match buf with
    | some bytes => some bytes
    | none => none)

/-- Observable behaviour of one `GenerateWithImage` call: the outcome of
the fallback loop, the content of the reader handed to each invoked
backend (fresh `bytes.NewReader(imageBuf.Bytes())` per attempt, line
148), what is left unread in the original source, and how many times the
original source was drained. -/
structure ImageRun where
  outcome : GenOutcome
  attemptViews : List (Option (List Nat))
  sourceAfter : Option (List Nat)
  sourceReads : Nat
deriving DecidableEq

/-- `(f *FallbackLLM) GenerateWithImage` (fallback.go lines 139-152):
buffer the source once up front, then run `generateWithFallback` where
every attempt receives a fresh reader over the buffered bytes (the
original source is only ever passed to `bufferImage`). -/
def generateWithImage (hasCb : Bool) (llms : List Backend)
    (image : Option (List Nat)) : ImageRun :=
  let buffered := bufferImage image
  let out := generateWithFallback hasCb llms
  { outcome := out,
    attemptViews := out.invoked.map (fun _ => buffered.1),
    sourceAfter := buffered.2,
    sourceReads := if image = none then 0 else 1 }

/-- Observable behaviour of one `GenerateWithImages` call:
`attemptViews` holds, per invoked backend, the reader contents produced
by `newReadersFromBuffers(imageBufs)` for that attempt. -/
structure ImagesRun where
  outcome : GenOutcome
  attemptViews : List (List (Option (List Nat)))
  sourcesAfter : List (Option (List Nat))
deriving DecidableEq

/-- `(f *FallbackLLM) GenerateWithImages` (fallback.go lines 154-172):
reject an image/mime-type count mismatch before buffering, otherwise
buffer every source once and hand each attempt fresh readers. -/
def generateWithImages (hasCb : Bool) (llms : List Backend)
    (images : List (Option (List Nat))) (mimeTypes : List String) :
    ImagesRun :=
  if images.length ≠ mimeTypes.length then
    { outcome :=
        { result := .error (.mismatchErr images.length mimeTypes.length),
          newModel := none, callbackArgs := [], invoked := [] },
      attemptViews := [], sourcesAfter := images }
  else
    let imageBufs := images.map (fun img => (bufferImage img).1)
    let out := generateWithFallback hasCb llms
    { outcome := out,
      attemptViews := out.invoked.map (fun _ => newReadersFromBuffers imageBufs),
      sourcesAfter := images.map (fun img => (bufferImage img).2) }

end AIFallback

namespace GooglePool

/-- Two's-complement wrap of an `int32` value. -/
def wrap32 (n : Int) : Int := (n + 2 ^ 31) % 2 ^ 32 - 2 ^ 31

/-- The state of a `Google` value (google.go) that `getNextClient` and
`GetModel` touch: `NewGoogle` creates one client per location, so the
client handles are identified with their indices into `locations`;
`clientIndex` is the shared `int32` rotation counter (initially 0). -/
structure GoogleState where
  locations : List String
  clientIndex : Int
deriving DecidableEq

/-- `len(g.clients)` (= `len(g.locations)` by construction). -/
def GoogleState.poolSize (s : GoogleState) : Nat := s.locations.length

/-- `(g *Google) getNextClient` (google.go lines 79-97) run without
interference, as one step: returns the index of the client whose handle
is returned (`none` when the pool is empty and the method returns nil)
and the updated state.  On the multi-client path the selected index is
`atomic.AddInt32(&g.clientIndex, 1)`, reset to 0 when it reaches
`len(g.clients)`. -/
def getNextClient (s : GoogleState) : Option Int × GoogleState :=
  if s.poolSize = 0 then (none, s)
  else if s.poolSize = 1 then (some 0, s)
  else
    let index := wrap32 (s.clientIndex + 1)
    if (s.poolSize : Int) ≤ index then (some 0, { s with clientIndex := 0 })
    else (some index, { s with clientIndex := index })

/-- The first atomic action of `getNextClient`'s multi-client path,
`index := atomic.AddInt32(&g.clientIndex, 1)` (google.go line 91), in
isolation: the conditional `atomic.StoreInt32(&g.clientIndex, 0)` on
line 93 is a distinct later atomic action, and `getNextClient` holds
only `g.mu.RLock()`, which other readers share — so another goroutine
can read the counter between the two. -/
def addInt32Step (s : GoogleState) : GoogleState × Int :=
  let index := wrap32 (s.clientIndex + 1)
  ({ s with clientIndex := index }, index)

/-- `(g *Google) GetModel` (google.go lines 186-191): reads
`g.locations[atomic.LoadInt32(&g.clientIndex)]` with no bound check and
formats `"%s/%s"`. Returns `none` when the loaded counter is outside
`g.locations` — in Go that is an out-of-range slice index, a runtime
panic. -/
def GetModel (s : GoogleState) (model : String) : Option String :=
  if 0 ≤ s.clientIndex ∧ s.clientIndex < (s.poolSize : Int) then
    some (s.locations.getD s.clientIndex.toNat "" ++ "/" ++ model)
  else none

/-- `n` consecutive uninterfered `getNextClient` calls: the selected
indices in order, and the final state. -/
def runSelect : Nat → GoogleState → List (Option Int) × GoogleState
  | 0, s => ([], s)
  | n + 1, s =>
    let step := getNextClient s
    let rest := runSelect n step.2
    (step.1 :: rest.1, rest.2)

end GooglePool

namespace AIFallback

/-! ## Lemmas about the synchronous fallback loop -/

theorem genFallbackAux_first_success (hasCb : Bool) (lastErr : Option GoErr)
    (pre : List Backend) (b : Backend) (post : List Backend) (r : String)
    (hpre : ∀ p ∈ pre, p.fails) (hb : b.result = .ok r) :
    (genFallbackAux hasCb lastErr (pre ++ b :: post)).result = .ok r ∧
      (genFallbackAux hasCb lastErr (pre ++ b :: post)).newModel = some b.model ∧
      (genFallbackAux hasCb lastErr (pre ++ b :: post)).invoked
        = pre.map Backend.model ++ [b.model] := by
  induction pre generalizing lastErr with
  | nil => simp [genFallbackAux, hb]
  | cons p pre ih =>
    obtain ⟨e, he⟩ := hpre p (by simp)
    have hrest : ∀ q ∈ pre, q.fails := fun q hq => hpre q (by simp [hq])
    obtain ⟨h1, h2, h3⟩ := ih (some e) hrest
    simp [genFallbackAux, he, h1, h2, h3]

theorem messagesAux_first_success (hasCb : Bool) (lastErr : Option GoErr)
    (pre : List Backend) (b : Backend) (post : List Backend) (r : String)
    (hpre : ∀ p ∈ pre, p.fails) (hb : b.result = .ok r) :
    (fallbackGenerateWithMessagesAux hasCb lastErr (pre ++ b :: post)).result
        = .ok r ∧
      (fallbackGenerateWithMessagesAux hasCb lastErr (pre ++ b :: post)).newModel
        = some b.model ∧
      (fallbackGenerateWithMessagesAux hasCb lastErr (pre ++ b :: post)).invoked
        = pre.map Backend.model ++ [b.model] := by
  induction pre generalizing lastErr with
  | nil => simp [fallbackGenerateWithMessagesAux, hb]
  | cons p pre ih =>
    obtain ⟨e, he⟩ := hpre p (by simp)
    have hrest : ∀ q ∈ pre, q.fails := fun q hq => hpre q (by simp [hq])
    obtain ⟨h1, h2, h3⟩ := ih (some e) hrest
    simp [fallbackGenerateWithMessagesAux, he, h1, h2, h3]

theorem Backend.errOf_error {b : Backend} {e : GoErr}
    (he : b.result = .error e) : b.errOf = some e := by
  simp [Backend.errOf, he]

theorem genFallbackAux_cons_error (hasCb : Bool) (lastErr : Option GoErr)
    (b : Backend) (rest : List Backend) (e : GoErr)
    (he : b.result = .error e) :
    genFallbackAux hasCb lastErr (b :: rest) =
      { result := (genFallbackAux hasCb (some e) rest).result,
        newModel := (genFallbackAux hasCb (some e) rest).newModel,
        callbackArgs := (if hasCb then [GoErr.modelErr b.model e] else [])
          ++ (genFallbackAux hasCb (some e) rest).callbackArgs,
        invoked := b.model :: (genFallbackAux hasCb (some e) rest).invoked } := by
  simp [genFallbackAux, he]

theorem messagesAux_cons_error (hasCb : Bool) (lastErr : Option GoErr)
    (b : Backend) (rest : List Backend) (e : GoErr)
    (he : b.result = .error e) :
    fallbackGenerateWithMessagesAux hasCb lastErr (b :: rest) =
      { result := (fallbackGenerateWithMessagesAux hasCb (some e) rest).result,
        newModel := (fallbackGenerateWithMessagesAux hasCb (some e) rest).newModel,
        callbackArgs := (if hasCb then [GoErr.modelErr b.model e] else [])
          ++ (fallbackGenerateWithMessagesAux hasCb (some e) rest).callbackArgs,
        invoked :=
          b.model :: (fallbackGenerateWithMessagesAux hasCb (some e) rest).invoked } := by
  simp [fallbackGenerateWithMessagesAux, he]

theorem genFallbackAux_all_fail (lastErr : Option GoErr) (bs : List Backend)
    (bl : Backend) (el : GoErr)
    (hlast : bs.getLast? = some bl) (hel : bl.result = .error el)
    (hfail : ∀ b ∈ bs, b.fails) :
    (genFallbackAux true lastErr bs).result = .error (.aggregated el) ∧
      (genFallbackAux true lastErr bs).newModel = none ∧
      (genFallbackAux true lastErr bs).callbackArgs
        = bs.map (fun b => GoErr.modelErr b.model (b.errOf.getD .llmFailed)) ∧
      (genFallbackAux true lastErr bs).invoked = bs.map Backend.model := by
  induction bs generalizing lastErr with
  | nil => simp at hlast
  | cons b rest ih =>
    obtain ⟨e, he⟩ := hfail b (by simp)
    cases rest with
    | nil =>
      have hb : b = bl := by simpa using hlast
      subst hb
      have : e = el := by rw [he] at hel; exact (Except.error.injEq _ _).mp hel
      subst this
      simp [genFallbackAux, he, aggErr, Backend.errOf]
    | cons c rest' =>
      have hlast' : (c :: rest').getLast? = some bl := by
        simpa [List.getLast?_cons_cons] using hlast
      have hrest : ∀ q ∈ c :: rest', q.fails := fun q hq => hfail q (by simp [hq])
      obtain ⟨h1, h2, h3, h4⟩ := ih (some e) hlast' hrest
      rw [genFallbackAux_cons_error true lastErr b (c :: rest') e he]
      refine ⟨h1, h2, ?_, ?_⟩
      · simp [h3, Backend.errOf_error he]
      · simp [h4]

theorem messagesAux_all_fail (lastErr : Option GoErr) (bs : List Backend)
    (bl : Backend) (el : GoErr)
    (hlast : bs.getLast? = some bl) (hel : bl.result = .error el)
    (hfail : ∀ b ∈ bs, b.fails) :
    (fallbackGenerateWithMessagesAux true lastErr bs).result
        = .error (.aggregated el) ∧
      (fallbackGenerateWithMessagesAux true lastErr bs).newModel = none ∧
      (fallbackGenerateWithMessagesAux true lastErr bs).callbackArgs
        = bs.map (fun b => GoErr.modelErr b.model (b.errOf.getD .llmFailed)) ∧
      (fallbackGenerateWithMessagesAux true lastErr bs).invoked
        = bs.map Backend.model := by
  induction bs generalizing lastErr with
  | nil => simp at hlast
  | cons b rest ih =>
    obtain ⟨e, he⟩ := hfail b (by simp)
    cases rest with
    | nil =>
      have hb : b = bl := by simpa using hlast
      subst hb
      have : e = el := by rw [he] at hel; exact (Except.error.injEq _ _).mp hel
      subst this
      simp [fallbackGenerateWithMessagesAux, he, aggErr, Backend.errOf]
    | cons c rest' =>
      have hlast' : (c :: rest').getLast? = some bl := by
        simpa [List.getLast?_cons_cons] using hlast
      have hrest : ∀ q ∈ c :: rest', q.fails := fun q hq => hfail q (by simp [hq])
      obtain ⟨h1, h2, h3, h4⟩ := ih (some e) hlast' hrest
      rw [messagesAux_cons_error true lastErr b (c :: rest') e he]
      refine ⟨h1, h2, ?_, ?_⟩
      · simp [h3, Backend.errOf_error he]
      · simp [h4]

theorem genFallbackAux_nilCb (lastErr : Option GoErr) (bs : List Backend) :
    (genFallbackAux false lastErr bs).callbackArgs = [] := by
  induction bs generalizing lastErr with
  | nil => simp [genFallbackAux]
  | cons b rest ih =>
    cases hb : b.result with
    | ok r => simp [genFallbackAux, hb]
    | error e => simp [genFallbackAux, hb, ih]

theorem messagesAux_nilCb (lastErr : Option GoErr) (bs : List Backend) :
    (fallbackGenerateWithMessagesAux false lastErr bs).callbackArgs = [] := by
  induction bs generalizing lastErr with
  | nil => simp [fallbackGenerateWithMessagesAux]
  | cons b rest ih =>
    cases hb : b.result with
    | ok r => simp [fallbackGenerateWithMessagesAux, hb]
    | error e => simp [fallbackGenerateWithMessagesAux, hb, ih]

end AIFallback

namespace AIFallback

/-! ## Claim theorems: synchronous calls -/

/-- C1: for every non-empty backend list in which backend `k` (here
`k = pre.length`, so the list is `pre ++ b :: post` with every backend
of `pre` failing and `b` succeeding), each synchronous entry point
(`Generate`, `GenerateWithImage`, `GenerateWithImages`,
`GenerateWithMessages`) returns backend `k`'s result unchanged, sets
`currentModel` to backend `k`'s model id, and invokes exactly the
backends up to and including position `k`, in order — none after it. -/
theorem C1_first_success_short_circuit (hasCb : Bool) (pre : List Backend)
    (b : Backend) (post : List Backend) (r : String)
    (img : Option (List Nat)) (images : List (Option (List Nat)))
    (mimeTypes : List String)
    (hpre : ∀ p ∈ pre, p.fails) (hb : b.result = .ok r)
    (hlen : images.length = mimeTypes.length) :
    ((fallbackGenerate hasCb (pre ++ b :: post)).result = .ok r ∧
      (fallbackGenerate hasCb (pre ++ b :: post)).newModel = some b.model ∧
      (fallbackGenerate hasCb (pre ++ b :: post)).invoked
        = pre.map Backend.model ++ [b.model]) ∧
    ((fallbackGenerateWithMessages hasCb (pre ++ b :: post)).result = .ok r ∧
      (fallbackGenerateWithMessages hasCb (pre ++ b :: post)).newModel
        = some b.model ∧
      (fallbackGenerateWithMessages hasCb (pre ++ b :: post)).invoked
        = pre.map Backend.model ++ [b.model]) ∧
    (generateWithImage hasCb (pre ++ b :: post) img).outcome
      = fallbackGenerate hasCb (pre ++ b :: post) ∧
    (generateWithImages hasCb (pre ++ b :: post) images mimeTypes).outcome
      = fallbackGenerate hasCb (pre ++ b :: post) := by
  refine ⟨?_, ?_, ?_, ?_⟩
  · exact genFallbackAux_first_success hasCb none pre b post r hpre hb
  · exact messagesAux_first_success hasCb none pre b post r hpre hb
  · simp [generateWithImage, fallbackGenerate]
  · simp [generateWithImages, fallbackGenerate, hlen]

/-- Witness for C1 at a concrete input: backend 0 fails, backend 1
succeeds with "hi", backend 2 is never invoked. -/
theorem C1_first_success_short_circuit_witness :
    ((fallbackGenerate true
        ([⟨"m0", .error (.backendErr "boom")⟩] ++ ⟨"m1", .ok "hi"⟩
          :: [⟨"m2", .ok "bye"⟩])).result = .ok "hi" ∧
      (fallbackGenerate true
        ([⟨"m0", .error (.backendErr "boom")⟩] ++ ⟨"m1", .ok "hi"⟩
          :: [⟨"m2", .ok "bye"⟩])).newModel = some "m1" ∧
      (fallbackGenerate true
        ([⟨"m0", .error (.backendErr "boom")⟩] ++ ⟨"m1", .ok "hi"⟩
          :: [⟨"m2", .ok "bye"⟩])).invoked
        = [⟨"m0", .error (.backendErr "boom")⟩].map Backend.model ++ ["m1"]) ∧
    ((fallbackGenerateWithMessages true
        ([⟨"m0", .error (.backendErr "boom")⟩] ++ ⟨"m1", .ok "hi"⟩
          :: [⟨"m2", .ok "bye"⟩])).result = .ok "hi" ∧
      (fallbackGenerateWithMessages true
        ([⟨"m0", .error (.backendErr "boom")⟩] ++ ⟨"m1", .ok "hi"⟩
          :: [⟨"m2", .ok "bye"⟩])).newModel = some "m1" ∧
      (fallbackGenerateWithMessages true
        ([⟨"m0", .error (.backendErr "boom")⟩] ++ ⟨"m1", .ok "hi"⟩
          :: [⟨"m2", .ok "bye"⟩])).invoked
        = [⟨"m0", .error (.backendErr "boom")⟩].map Backend.model ++ ["m1"]) ∧
    (generateWithImage true
        ([⟨"m0", .error (.backendErr "boom")⟩] ++ ⟨"m1", .ok "hi"⟩
          :: [⟨"m2", .ok "bye"⟩]) (some [7])).outcome
      = fallbackGenerate true
          ([⟨"m0", .error (.backendErr "boom")⟩] ++ ⟨"m1", .ok "hi"⟩
            :: [⟨"m2", .ok "bye"⟩]) ∧
    (generateWithImages true
        ([⟨"m0", .error (.backendErr "boom")⟩] ++ ⟨"m1", .ok "hi"⟩
          :: [⟨"m2", .ok "bye"⟩]) [some [7]] ["image/png"]).outcome
      = fallbackGenerate true
          ([⟨"m0", .error (.backendErr "boom")⟩] ++ ⟨"m1", .ok "hi"⟩
            :: [⟨"m2", .ok "bye"⟩]) :=
  C1_first_success_short_circuit true [⟨"m0", .error (.backendErr "boom")⟩]
    ⟨"m1", .ok "hi"⟩ [⟨"m2", .ok "bye"⟩] "hi" (some [7]) [some [7]]
    ["image/png"] (by decide) rfl rfl

/-- C3: when every backend of a non-empty list fails, `Generate` (via
`generateWithFallback`) and `GenerateWithMessages` fail with the
aggregated error wrapping exactly the last backend's error, the
callback receives exactly one `Model ... error: ...` argument per
backend, in list order, carrying that backend's model id and error
(`b.errOf.getD .llmFailed` is that backend's own error, since every
`b.errOf` is a `some` here), every backend is invoked once in order,
and `currentModel` is never written. -/
theorem C3_all_fail_aggregated_last (bs : List Backend) (bl : Backend)
    (el : GoErr)
    (hlast : bs.getLast? = some bl) (hel : bl.result = .error el)
    (hfail : ∀ b ∈ bs, b.fails) :
    ((generateWithFallback true bs).result = .error (.aggregated el) ∧
      (generateWithFallback true bs).newModel = none ∧
      (generateWithFallback true bs).callbackArgs
        = bs.map (fun b => GoErr.modelErr b.model (b.errOf.getD .llmFailed)) ∧
      (generateWithFallback true bs).invoked = bs.map Backend.model) ∧
    ((fallbackGenerateWithMessages true bs).result = .error (.aggregated el) ∧
      (fallbackGenerateWithMessages true bs).newModel = none ∧
      (fallbackGenerateWithMessages true bs).callbackArgs
        = bs.map (fun b => GoErr.modelErr b.model (b.errOf.getD .llmFailed)) ∧
      (fallbackGenerateWithMessages true bs).invoked = bs.map Backend.model) :=
  ⟨genFallbackAux_all_fail none bs bl el hlast hel hfail,
    messagesAux_all_fail none bs bl el hlast hel hfail⟩

/-- Witness for C3 at a concrete two-backend list where both fail: the
aggregated error wraps the second error only, and the callback sees
both failures in order. -/
theorem C3_all_fail_aggregated_last_witness :
    ((generateWithFallback true
        [⟨"m0", .error (.backendErr "e0")⟩, ⟨"m1", .error (.backendErr "e1")⟩]).result
      = .error (.aggregated (.backendErr "e1")) ∧
      (generateWithFallback true
        [⟨"m0", .error (.backendErr "e0")⟩, ⟨"m1", .error (.backendErr "e1")⟩]).newModel
        = none ∧
      (generateWithFallback true
        [⟨"m0", .error (.backendErr "e0")⟩, ⟨"m1", .error (.backendErr "e1")⟩]).callbackArgs
        = ([⟨"m0", .error (.backendErr "e0")⟩,
            ⟨"m1", .error (.backendErr "e1")⟩] : List Backend).map
            (fun b => GoErr.modelErr b.model (b.errOf.getD .llmFailed)) ∧
      (generateWithFallback true
        [⟨"m0", .error (.backendErr "e0")⟩, ⟨"m1", .error (.backendErr "e1")⟩]).invoked
        = ([⟨"m0", .error (.backendErr "e0")⟩,
            ⟨"m1", .error (.backendErr "e1")⟩] : List Backend).map
            Backend.model) ∧
    ((fallbackGenerateWithMessages true
        [⟨"m0", .error (.backendErr "e0")⟩, ⟨"m1", .error (.backendErr "e1")⟩]).result
      = .error (.aggregated (.backendErr "e1")) ∧
      (fallbackGenerateWithMessages true
        [⟨"m0", .error (.backendErr "e0")⟩, ⟨"m1", .error (.backendErr "e1")⟩]).newModel
        = none ∧
      (fallbackGenerateWithMessages true
        [⟨"m0", .error (.backendErr "e0")⟩, ⟨"m1", .error (.backendErr "e1")⟩]).callbackArgs
        = ([⟨"m0", .error (.backendErr "e0")⟩,
            ⟨"m1", .error (.backendErr "e1")⟩] : List Backend).map
            (fun b => GoErr.modelErr b.model (b.errOf.getD .llmFailed)) ∧
      (fallbackGenerateWithMessages true
        [⟨"m0", .error (.backendErr "e0")⟩, ⟨"m1", .error (.backendErr "e1")⟩]).invoked
        = ([⟨"m0", .error (.backendErr "e0")⟩,
            ⟨"m1", .error (.backendErr "e1")⟩] : List Backend).map
            Backend.model) :=
  C3_all_fail_aggregated_last
    [⟨"m0", .error (.backendErr "e0")⟩, ⟨"m1", .error (.backendErr "e1")⟩]
    ⟨"m1", .error (.backendErr "e1")⟩ (.backendErr "e1") rfl rfl (by decide)

end AIFallback

namespace AIFallback

/-- `e` has the aggregated shape `fmt.Errorf("LLM failed, last error:
%v", err)` with a non-nil wrapped error. -/
def GoErr.wrapsLastError : GoErr → Bool
  | .aggregated _ => true
  | _ => false

/-- C5, counterexample: on an empty backend list no "no backends"
sentinel is wrapped as last error anywhere.  The synchronous path
returns the aggregated format string around a nil error
(`aggregatedNil`, "LLM failed, last error: <nil>"), which wraps no
sentinel, and the streaming path does not even use the aggregated
shape: it emits the bare `errors.New("LLM failed")` sentinel. -/
theorem C5_empty_list_error_shape_counterexample :
    (generateWithFallback true []).result = .error .aggregatedNil ∧
    GoErr.wrapsLastError .aggregatedNil = false ∧
    (fallbackGenerateStream true []).events = [.errSig .llmFailed] ∧
    GoErr.wrapsLastError .llmFailed = false := by
  decide

/-- C5 as amended: for an empty backend list every orchestrator call
fails immediately with no backend invoked and the callback never
invoked; the synchronous calls (`Generate`, `GenerateWithMessages`,
and `GenerateWithImage(s)` through the same loop) return the
aggregated-format error around a nil last error (`aggregatedNil`),
while `GenerateStream` delivers the bare `llmFailed` sentinel on the
error channel. -/
theorem C5_empty_list_fails_immediately (hasCb : Bool) :
    generateWithFallback hasCb [] =
      { result := .error .aggregatedNil, newModel := none,
        callbackArgs := [], invoked := [] } ∧
    fallbackGenerateWithMessages hasCb [] =
      { result := .error .aggregatedNil, newModel := none,
        callbackArgs := [], invoked := [] } ∧
    fallbackGenerateStream hasCb [] =
      { events := [.errSig .llmFailed], newModel := none,
        callbackArgs := [], invoked := [], nilCbCrash := false } := by
  refine ⟨?_, ?_, ?_⟩ <;>
    simp [generateWithFallback, genFallbackAux,
      fallbackGenerateWithMessages, fallbackGenerateWithMessagesAux,
      fallbackGenerateStream, generateStreamAux, aggErr, finalStreamErr]

/-- Witness for C5 (amended) with a non-nil callback. -/
theorem C5_empty_list_fails_immediately_witness :
    generateWithFallback true [] =
      { result := .error .aggregatedNil, newModel := none,
        callbackArgs := [], invoked := [] } ∧
    fallbackGenerateWithMessages true [] =
      { result := .error .aggregatedNil, newModel := none,
        callbackArgs := [], invoked := [] } ∧
    fallbackGenerateStream true [] =
      { events := [.errSig .llmFailed], newModel := none,
        callbackArgs := [], invoked := [], nilCbCrash := false } :=
  C5_empty_list_fails_immediately true

/-- C10: with a nil error-observation callback, the synchronous
backend-failure branches (fallback.go line 29, and its duplicate at
line 182) are guarded by `if f.errorCallback != nil` and never invoke
the callback, for any backend list; but the streaming backend-failure
branch (line 84) has no such guard, so a `GenerateStream` whose first
backend fails with a non-cancellation error dereferences the nil
callback (`nilCbCrash`), a Go runtime panic. -/
theorem C10_nil_callback_guard_asymmetry (bs : List Backend)
    (b : StreamBackend) (rest : List StreamBackend) (e : GoErr)
    (hb : b.outcome = .fail e) (he : e ≠ .canceled) :
    (generateWithFallback false bs).callbackArgs = [] ∧
    (fallbackGenerateWithMessages false bs).callbackArgs = [] ∧
    (fallbackGenerateStream false (b :: rest)).nilCbCrash = true := by
  refine ⟨genFallbackAux_nilCb none bs, messagesAux_nilCb none bs, ?_⟩
  simp [fallbackGenerateStream, generateStreamAux, hb, he]

/-- Witness for C10: one failing streaming backend, nil callback. -/
theorem C10_nil_callback_guard_asymmetry_witness :
    (generateWithFallback false [⟨"m0", .error (.backendErr "x")⟩]).callbackArgs
      = [] ∧
    (fallbackGenerateWithMessages false
      [⟨"m0", .error (.backendErr "x")⟩]).callbackArgs = [] ∧
    (fallbackGenerateStream false
      [⟨"A", ["t"], .fail (.backendErr "x")⟩]).nilCbCrash = true :=
  C10_nil_callback_guard_asymmetry [⟨"m0", .error (.backendErr "x")⟩]
    ⟨"A", ["t"], .fail (.backendErr "x")⟩ [] (.backendErr "x") rfl (by decide)

end AIFallback

namespace AIFallback

/-! ## Claim theorems: streaming -/

theorem streamAux_cons_fail (first : Bool) (lastErr : Option GoErr)
    (b : StreamBackend) (rest : List StreamBackend) (e : GoErr)
    (hb : b.outcome = .fail e) (he : e ≠ .canceled) :
    generateStreamAux true first lastErr (b :: rest) =
      { events :=
          ((if first then [] else [.token "[CLEAR]"]) ++ b.tokens.map .token)
            ++ (generateStreamAux true false (some e) rest).events,
        newModel := (generateStreamAux true false (some e) rest).newModel,
        callbackArgs := GoErr.modelErr b.model e
          :: (generateStreamAux true false (some e) rest).callbackArgs,
        invoked :=
          b.model :: (generateStreamAux true false (some e) rest).invoked,
        nilCbCrash :=
          (generateStreamAux true false (some e) rest).nilCbCrash } := by
  simp [generateStreamAux, hb, he]

/-- C2: for a streaming call over `[A, B]` where `A`'s attempt fails
with a non-cancellation error and `B`'s completes, the channel trace is
exactly: `A`'s tokens, one `"[CLEAR]"` sentinel, `B`'s tokens, the done
signal — so no token of `A` follows the sentinel; when neither backend
emits the reserved string itself, the sentinel appears exactly once.
The model writes each attempt's tokens before the orchestrator handles
that attempt's terminal signal, which is faithful to the adapters here
(the backend goroutine sends its error as its last act), and the next
attempt starts only after `cancel()` on the failed attempt's scope. -/
theorem C2_stream_failover_trace (A B : StreamBackend) (e : GoErr)
    (hA : A.outcome = .fail e) (he : e ≠ .canceled) (hB : B.outcome = .done)
    (hAc : "[CLEAR]" ∉ A.tokens) (hBc : "[CLEAR]" ∉ B.tokens) :
    fallbackGenerateStream true [A, B] =
      { events := A.tokens.map .token ++ [.token "[CLEAR]"]
          ++ B.tokens.map .token ++ [.doneSig],
        newModel := some B.model,
        callbackArgs := [.modelErr A.model e],
        invoked := [A.model, B.model],
        nilCbCrash := false } ∧
    (fallbackGenerateStream true [A, B]).events.count (.token "[CLEAR]")
      = 1 := by
  have htrace : fallbackGenerateStream true [A, B] =
      { events := A.tokens.map .token ++ [.token "[CLEAR]"]
          ++ B.tokens.map .token ++ [.doneSig],
        newModel := some B.model,
        callbackArgs := [.modelErr A.model e],
        invoked := [A.model, B.model],
        nilCbCrash := false } := by
    rw [fallbackGenerateStream, streamAux_cons_fail true none A [B] e hA he]
    simp [generateStreamAux, hB]
  refine ⟨htrace, ?_⟩
  rw [htrace]
  have cA : (A.tokens.map StreamEvent.token).count (.token "[CLEAR]") = 0 :=
    List.count_eq_zero.mpr (by simpa using hAc)
  have cB : (B.tokens.map StreamEvent.token).count (.token "[CLEAR]") = 0 :=
    List.count_eq_zero.mpr (by simpa using hBc)
  simp [List.count_append, cA, cB]

/-- Witness for C2: `A` streams two tokens then fails, `B` streams one
token then completes. -/
theorem C2_stream_failover_trace_witness :
    fallbackGenerateStream true
      [⟨"A", ["t1", "t2"], .fail (.backendErr "x")⟩, ⟨"B", ["u1"], .done⟩] =
      { events := ["t1", "t2"].map .token ++ [.token "[CLEAR]"]
          ++ ["u1"].map .token ++ [.doneSig],
        newModel := some "B",
        callbackArgs := [.modelErr "A" (.backendErr "x")],
        invoked := ["A", "B"],
        nilCbCrash := false } ∧
    (fallbackGenerateStream true
      [⟨"A", ["t1", "t2"], .fail (.backendErr "x")⟩,
        ⟨"B", ["u1"], .done⟩]).events.count (.token "[CLEAR]") = 1 :=
  C2_stream_failover_trace ⟨"A", ["t1", "t2"], .fail (.backendErr "x")⟩
    ⟨"B", ["u1"], .done⟩ (.backendErr "x") rfl (by decide) rfl
    (by decide) (by decide)

theorem streamAux_canceled (pre : List StreamBackend) (c : StreamBackend)
    (post : List StreamBackend)
    (hpre : ∀ p ∈ pre, ∃ e, p.outcome = .fail e ∧ e ≠ .canceled)
    (hc : c.outcome = .ctxDone ∨ c.outcome = .fail .canceled) :
    ∀ (first : Bool) (lastErr : Option GoErr),
    (generateStreamAux true first lastErr (pre ++ c :: post)).invoked
        = pre.map StreamBackend.model ++ [c.model] ∧
    (∃ evs, (generateStreamAux true first lastErr (pre ++ c :: post)).events
        = evs ++ [.errSig .canceled]) ∧
    (generateStreamAux true first lastErr (pre ++ c :: post)).newModel
      = none := by
  induction pre with
  | nil =>
    intro first lastErr
    rcases hc with h | h
    · refine ⟨by simp [generateStreamAux, h], ⟨(if first then [] else
        [.token "[CLEAR]"]) ++ c.tokens.map .token, ?_⟩,
        by simp [generateStreamAux, h]⟩
      simp [generateStreamAux, h]
    · refine ⟨by simp [generateStreamAux, h], ⟨(if first then [] else
        [.token "[CLEAR]"]) ++ c.tokens.map .token, ?_⟩,
        by simp [generateStreamAux, h]⟩
      simp [generateStreamAux, h]
  | cons p pre ih =>
    intro first lastErr
    obtain ⟨e, hpe, hne⟩ := hpre p (by simp)
    have hrest : ∀ q ∈ pre, ∃ e, q.outcome = .fail e ∧ e ≠ .canceled :=
      fun q hq => hpre q (by simp [hq])
    obtain ⟨h1, ⟨evs, h2⟩, h3⟩ := ih hrest false (some e)
    rw [List.cons_append, streamAux_cons_fail first lastErr p _ e hpe hne]
    exact ⟨by simp [h1],
      ⟨((if first then [] else [.token "[CLEAR]"]) ++ p.tokens.map .token)
        ++ evs, by simp [h2]⟩, h3⟩

/-- C4: if, after any run of backends failing with ordinary errors, the
caller's cancellation is observed during the next attempt — either the
`ctx.Done()` arm fires or the backend reports `context.Canceled` — the
run delivers a cancellation error as its final channel event, attempts
exactly the backends up to the in-flight one (none of `post` is ever
started), and never records a model. -/
theorem C4_cancellation_no_fallback (pre post : List StreamBackend)
    (c : StreamBackend)
    (hpre : ∀ p ∈ pre, ∃ e, p.outcome = .fail e ∧ e ≠ .canceled)
    (hc : c.outcome = .ctxDone ∨ c.outcome = .fail .canceled) :
    (fallbackGenerateStream true (pre ++ c :: post)).invoked
        = pre.map StreamBackend.model ++ [c.model] ∧
    (∃ evs, (fallbackGenerateStream true (pre ++ c :: post)).events
        = evs ++ [.errSig .canceled]) ∧
    (fallbackGenerateStream true (pre ++ c :: post)).newModel = none :=
  streamAux_canceled pre c post hpre hc true none

/-- Witness for C4: backend "A" fails normally, cancellation fires
while backend "B" is in flight, backend "C" is never started. -/
theorem C4_cancellation_no_fallback_witness :
    (fallbackGenerateStream true
        ([⟨"A", ["t"], .fail (.backendErr "x")⟩] ++ ⟨"B", ["u"], .ctxDone⟩
          :: [⟨"C", [], .done⟩])).invoked
      = [⟨"A", ["t"], .fail (.backendErr "x")⟩].map StreamBackend.model
          ++ ["B"] ∧
    (∃ evs, (fallbackGenerateStream true
        ([⟨"A", ["t"], .fail (.backendErr "x")⟩] ++ ⟨"B", ["u"], .ctxDone⟩
          :: [⟨"C", [], .done⟩])).events = evs ++ [.errSig .canceled]) ∧
    (fallbackGenerateStream true
        ([⟨"A", ["t"], .fail (.backendErr "x")⟩] ++ ⟨"B", ["u"], .ctxDone⟩
          :: [⟨"C", [], .done⟩])).newModel = none :=
  C4_cancellation_no_fallback [⟨"A", ["t"], .fail (.backendErr "x")⟩]
    [⟨"C", [], .done⟩] ⟨"B", ["u"], .ctxDone⟩
    (by
      intro p hp
      simp only [List.mem_singleton] at hp
      subst hp
      exact ⟨.backendErr "x", rfl, by decide⟩)
    (Or.inl rfl)

/-- C9, counterexample: not every channel send performed by
`GenerateStream` is raced against the parent context's cancellation —
the done-signal sends (lines 74, 89) and the error sends at lines 51,
58, 79 and 94 are unconditional blocking sends. -/
theorem C9_not_all_sends_guarded_counterexample :
    generateStreamSendSites.all SendSite.guarded = false := by
  decide

/-- C9 as amended: among the orchestrator's own sends in
`GenerateStream`, exactly the `"[CLEAR]"` sentinel send (line 49) and
the final aggregated-error send (line 107) race against the parent
context's cancellation; the done-signal sends and the remaining error
sends are unconditional, so an unread consumer can block the
orchestrator even after the caller cancels. -/
theorem C9_guarded_sends_exactly_clear_and_final :
    (generateStreamSendSites.filter SendSite.guarded).map SendSite.line
      = [49, 107] ∧
    (generateStreamSendSites.filter
        (fun site => !site.guarded)).map SendSite.line
      = [51, 58, 74, 79, 89, 94] ∧
    (generateStreamSendSites.filter
        (fun site => !site.guarded)).map SendSite.chan
      = [.errCh, .errCh, .doneCh, .errCh, .doneCh, .errCh] := by
  decide

end AIFallback

namespace AIFallback

/-- C8: for a two-backend list whose first backend fails, both
`GenerateWithImage` and `GenerateWithImages` over a single-pass source
hand the second attempt a fresh read-view whose bytes equal the
original source's content byte for byte; the original source is drained
exactly once, by `bufferImage`, and is empty (never re-read) from then
on — attempts only ever see readers manufactured from the buffer. -/
theorem C8_image_rebuffering (b1 b2 : Backend) (e : GoErr)
    (data : List Nat) (mt : String)
    (h1 : b1.result = .error e) :
    ((generateWithImage true [b1, b2] (some data)).attemptViews
        = [some data, some data] ∧
      (generateWithImage true [b1, b2] (some data)).sourceAfter = some [] ∧
      (generateWithImage true [b1, b2] (some data)).sourceReads = 1) ∧
    ((generateWithImages true [b1, b2] [some data] [mt]).attemptViews
        = [[some data], [some data]] ∧
      (generateWithImages true [b1, b2] [some data] [mt]).sourcesAfter
        = [some []]) := by
  have hinv : (generateWithFallback true [b1, b2]).invoked
      = [b1.model, b2.model] := by
    cases hb2 : b2.result <;>
      simp [generateWithFallback, genFallbackAux, h1, hb2]
  constructor
  · refine ⟨?_, ?_, ?_⟩ <;> simp [generateWithImage, bufferImage, hinv]
  · constructor <;>
      simp [generateWithImages, bufferImage, hinv, newReadersFromBuffers]

/-- Witness for C8: a three-byte image, first backend fails, second
succeeds; both attempts see the full bytes. -/
theorem C8_image_rebuffering_witness :
    ((generateWithImage true [⟨"m0", .error (.backendErr "x")⟩,
        ⟨"m1", .ok "y"⟩] (some [1, 2, 3])).attemptViews
        = [some [1, 2, 3], some [1, 2, 3]] ∧
      (generateWithImage true [⟨"m0", .error (.backendErr "x")⟩,
        ⟨"m1", .ok "y"⟩] (some [1, 2, 3])).sourceAfter = some [] ∧
      (generateWithImage true [⟨"m0", .error (.backendErr "x")⟩,
        ⟨"m1", .ok "y"⟩] (some [1, 2, 3])).sourceReads = 1) ∧
    ((generateWithImages true [⟨"m0", .error (.backendErr "x")⟩,
        ⟨"m1", .ok "y"⟩] [some [1, 2, 3]] ["image/png"]).attemptViews
        = [[some [1, 2, 3]], [some [1, 2, 3]]] ∧
      (generateWithImages true [⟨"m0", .error (.backendErr "x")⟩,
        ⟨"m1", .ok "y"⟩] [some [1, 2, 3]] ["image/png"]).sourcesAfter
        = [some []]) :=
  C8_image_rebuffering ⟨"m0", .error (.backendErr "x")⟩ ⟨"m1", .ok "y"⟩
    (.backendErr "x") [1, 2, 3] "image/png" rfl

end AIFallback

namespace GooglePool

/-! ## Lemmas about the round-robin pool -/

theorem wrap32_eq_self {n : Int} (h0 : -(2 ^ 31) ≤ n) (h1 : n < 2 ^ 31) :
    wrap32 n = n := by
  unfold wrap32
  rw [Int.emod_eq_of_lt (by omega) (by omega)]
  omega

theorem getNextClient_no_reset (locs : List String) (c : Int)
    (h2 : 2 ≤ locs.length) (hc0 : 0 ≤ c)
    (hc : c + 1 < (locs.length : Int))
    (hN : (locs.length : Int) ≤ 2 ^ 31 - 1) :
    getNextClient ⟨locs, c⟩ = (some (c + 1), ⟨locs, c + 1⟩) := by
  have hw : wrap32 (c + 1) = c + 1 := wrap32_eq_self (by omega) (by omega)
  have hne0 : ¬ (locs.length = 0) := by omega
  have hne1 : ¬ (locs.length = 1) := by omega
  have hlt : ¬ ((locs.length : Int) ≤ c + 1) := by omega
  simp [getNextClient, GoogleState.poolSize, hne0, hne1, hw, hlt]

theorem getNextClient_reset (locs : List String)
    (h2 : 2 ≤ locs.length) (hN : (locs.length : Int) ≤ 2 ^ 31 - 1) :
    getNextClient ⟨locs, (locs.length : Int) - 1⟩ = (some 0, ⟨locs, 0⟩) := by
  have hw : wrap32 ((locs.length : Int)) = (locs.length : Int) :=
    wrap32_eq_self (by omega) (by omega)
  have hne0 : ¬ (locs.length = 0) := by omega
  have hne1 : ¬ (locs.length = 1) := by omega
  simp [getNextClient, GoogleState.poolSize, hne0, hne1, hw]

theorem runSelect_add (m n : Nat) (s : GoogleState) :
    runSelect (m + n) s =
      ((runSelect m s).1 ++ (runSelect n (runSelect m s).2).1,
        (runSelect n (runSelect m s).2).2) := by
  induction m generalizing s with
  | zero => simp [runSelect]
  | succ m ih => simp [Nat.succ_add, runSelect, ih]

theorem runSelect_no_reset (k : Nat) (locs : List String) (c : Int)
    (h2 : 2 ≤ locs.length) (hc0 : 0 ≤ c)
    (hk : c + (k : Int) ≤ (locs.length : Int) - 1)
    (hN : (locs.length : Int) ≤ 2 ^ 31 - 1) :
    runSelect k ⟨locs, c⟩ =
      ((List.range' (c.toNat + 1) k).map (fun j => some ((j : Nat) : Int)),
        ⟨locs, c + k⟩) := by
  induction k generalizing c with
  | zero => simp [runSelect, List.range']
  | succ k ih =>
    have hstep : getNextClient ⟨locs, c⟩ = (some (c + 1), ⟨locs, c + 1⟩) :=
      getNextClient_no_reset locs c h2 hc0 (by omega) hN
    have ihh := ih (c + 1) (by omega) (by omega)
    have ht : (c + 1).toNat = c.toNat + 1 := by omega
    have hcast : ((c.toNat + 1 : Nat) : Int) = c + 1 := by omega
    rw [runSelect]
    simp only [hstep, ihh, ht, List.range', List.map_cons, Prod.mk.injEq,
      GoogleState.mk.injEq, List.cons.injEq]
    exact ⟨⟨by rw [hcast], trivial⟩, trivial, by omega⟩

theorem range'_join (a b s : Nat) :
    List.range' s a ++ List.range' (s + a) b = List.range' s (a + b) := by
  induction a generalizing s with
  | zero => simp [List.range']
  | succ a ih =>
    have h : s + (a + 1) = (s + 1) + a := by omega
    calc List.range' s (a + 1) ++ List.range' (s + (a + 1)) b
        = s :: (List.range' (s + 1) a ++ List.range' ((s + 1) + a) b) := by
          rw [h]; rfl
      _ = s :: List.range' (s + 1) (a + b) := by rw [ih]
      _ = List.range' s (a + 1 + b) := by
          rw [show a + 1 + b = (a + b) + 1 by omega]; rfl

end GooglePool

namespace GooglePool

/-! ## Claim theorems: round-robin pool -/

/-- C6, evidence of the failing input: from the reachable state
`counter = 1` of a two-endpoint pool (one completed `getNextClient`
after construction), a second `getNextClient`'s atomic increment sets
the shared counter to 2; a concurrent `GetModel` that loads the counter
before the reset therefore observes index 2 ≥ pool size 2 and indexes
`g.locations[2]` out of range — Go panics — whereas reading the counter
in any quiescent state is in range. -/
theorem C6_counter_escapes_pool_bound :
    getNextClient ⟨["us-central1", "europe-west1"], 0⟩
        = (some 1, ⟨["us-central1", "europe-west1"], 1⟩) ∧
    (addInt32Step ⟨["us-central1", "europe-west1"], 1⟩).2 = 2 ∧
    ¬ ((addInt32Step ⟨["us-central1", "europe-west1"], 1⟩).1.clientIndex
        < (((⟨["us-central1", "europe-west1"], 1⟩ : GoogleState)).poolSize : Int)) ∧
    GetModel (addInt32Step ⟨["us-central1", "europe-west1"], 1⟩).1 "gemini-pro"
      = none ∧
    GetModel ⟨["us-central1", "europe-west1"], 1⟩ "gemini-pro"
      = some "europe-west1/gemini-pro" := by
  decide

/-- C7: from any quiescent pool state with counter `c`, `0 ≤ c < N`
(`N` = pool size ≥ 1, within `int32` range), `N` consecutive
`getNextClient` calls select each endpoint index exactly once — the
result list is a permutation of `{0, ..., N-1}` — and every selected
index is below `N`; and when `N = 1` a call returns the sole endpoint
(index 0) and leaves the rotation counter untouched. -/
theorem C7_round_robin_cycle (locs : List String) (c : Int)
    (hN : 1 ≤ locs.length) (hc0 : 0 ≤ c) (hc : c < (locs.length : Int))
    (hsmall : (locs.length : Int) ≤ 2 ^ 31 - 1) :
    ((runSelect locs.length ⟨locs, c⟩).1).Perm
        ((List.range locs.length).map (fun j => some ((j : Nat) : Int))) ∧
    (∀ i ∈ (runSelect locs.length ⟨locs, c⟩).1, ∃ j : Nat,
        i = some ((j : Nat) : Int) ∧ j < locs.length) ∧
    (locs.length = 1 → getNextClient ⟨locs, c⟩ = (some 0, ⟨locs, c⟩)) := by
  have hone : locs.length = 1 → getNextClient ⟨locs, c⟩ = (some 0, ⟨locs, c⟩) := by
    intro h1
    simp [getNextClient, GoogleState.poolSize, h1]
  have hperm : ((runSelect locs.length ⟨locs, c⟩).1).Perm
      ((List.range locs.length).map (fun j => some ((j : Nat) : Int))) := by
    rcases Nat.lt_or_ge locs.length 2 with hlt | hge
    · have h1 : locs.length = 1 := by omega
      have hc' : c = 0 := by omega
      subst hc'
      have hrun : runSelect 1 (⟨locs, 0⟩ : GoogleState) = ([some 0], ⟨locs, 0⟩) := by
        rw [runSelect]
        simp [hone h1, runSelect]
      rw [h1, hrun]
      have hr : (List.range 1).map (fun j => some ((j : Nat) : Int))
          = [some 0] := by decide
      rw [hr]
    · have hct' : ((c.toNat : Nat) : Int) = c := Int.toNat_of_nonneg hc0
      have hk1 : locs.length
          = (locs.length - 1 - c.toNat) + (c.toNat + 1) := by omega
      have phase1 := runSelect_no_reset (locs.length - 1 - c.toNat) locs c
        hge hc0 (by omega) hsmall
      have phase2 := getNextClient_reset locs hge hsmall
      have phase3 := runSelect_no_reset c.toNat locs 0 hge le_rfl
        (by omega) hsmall
      have key : (runSelect locs.length ⟨locs, c⟩).1
          = (List.range' (c.toNat + 1) (locs.length - 1 - c.toNat)
              ++ List.range' 0 (c.toNat + 1)).map
              (fun j => some ((j : Nat) : Int)) := by
        conv_lhs => rw [hk1]
        rw [runSelect_add, phase1]
        have hcc : c + ((locs.length - 1 - c.toNat : Nat) : Int)
            = (locs.length : Int) - 1 := by omega
        rw [hcc, runSelect]
        simp only [phase2, phase3, List.map_append]
        congr 1
      rw [key, List.range_eq_range']
      refine List.Perm.map _ ?_
      have hj := range'_join (c.toNat + 1) (locs.length - 1 - c.toNat) 0
      have hsum : (c.toNat + 1) + (locs.length - 1 - c.toNat)
          = locs.length := by omega
      conv_rhs => rw [← hsum]
      rw [← hj]
      simpa using List.perm_append_comm
  refine ⟨hperm, ?_, hone⟩
  intro i hi
  have hmem := hperm.mem_iff.mp hi
  simp only [List.mem_map, List.mem_range] at hmem
  obtain ⟨j, hj, hji⟩ := hmem
  exact ⟨j, hji.symm, hj⟩

/-- Witness for C7: a three-endpoint pool starting at counter 0; the
three consecutive selections are a permutation of `{0, 1, 2}`. -/
theorem C7_round_robin_cycle_witness :
    ((runSelect (["a", "b", "c"] : List String).length
        ⟨["a", "b", "c"], 0⟩).1).Perm
      ((List.range (["a", "b", "c"] : List String).length).map
        (fun j => some ((j : Nat) : Int))) ∧
    (∀ i ∈ (runSelect (["a", "b", "c"] : List String).length
        ⟨["a", "b", "c"], 0⟩).1, ∃ j : Nat,
      i = some ((j : Nat) : Int) ∧ j < (["a", "b", "c"] : List String).length) ∧
    ((["a", "b", "c"] : List String).length = 1 →
      getNextClient ⟨["a", "b", "c"], 0⟩ = (some 0, ⟨["a", "b", "c"], 0⟩)) :=
  C7_round_robin_cycle ["a", "b", "c"] 0 (by decide) (by decide) (by decide)
    (by decide)

end GooglePool
